import Mathlib

/-!
Verification development for the C## interpreter (`src/cshs.py`).

The Python source is shallowly embedded: the regex-driven lexer is embedded
as a scanner that follows `re.finditer`'s ordered-alternation semantics, the
string-literal decoder follows `bytes(v,'utf-8').decode('unicode_escape')`,
and the tree-walking evaluator is embedded as a fuel-indexed interpreter over
an explicit state (environment store, sequence heap, function table, console
output and input).  Mutable Python objects (environment dicts, `CSList`
instances) are modelled as references into the state so that the source's
aliasing behaviour is preserved.
-/

namespace CSHS

/-! ## Lexer

Embedding of `lex` (src/cshs.py lines 7-36).  `MASTER` is an ordered
alternation `NUMBER|STRING|ID|OP|WS|COMMENT`; `re.finditer` scans left to
right, at each position trying the branches in that order (Python alternation
is first-match, not longest-match), and silently steps over a character at
which no branch matches.  The `COMMENT` branch is listed after `OP`, whose
single-character class contains `/`.
-/

structure Token where
  typ : String
  val : String
  pos : Nat
deriving DecidableEq

/-- `KEYWORDS` (src/cshs.py lines 17-21). -/
def keywords : List String :=
  ["if", "else", "while", "for", "foreach", "in", "return", "namespace",
   "using", "var", "int", "float", "string", "bool", "List", "true", "false"]

/-- Characters of the single-character `OP` class
`[+\-*/%<>=!.,;:{}()[\]]`.  The two brace characters are written via
`Char.ofNat` (codes 123 and 125). -/
def opSingles : List Char :=
  ['+', '-', '*', '/', '%', '<', '>', '=', '!', '.', ',', ';', ':',
   Char.ofNat 123, Char.ofNat 125, '(', ')', '[', ']']

/-- The multi-character operators, tried before the single-character class,
in the order they appear in the regex. -/
def opDoubles : List (Char × Char) :=
  [('=', '='), ('!', '='), ('<', '='), ('>', '='), ('&', '&'), ('|', '|')]

def isWsChar (c : Char) : Bool :=
  c = ' ' || c = '\t' || c = '\r' || c = '\n'

def isIdStart (c : Char) : Bool :=
  c.isAlpha || c = '_'

def isIdCont (c : Char) : Bool :=
  c.isAlpha || c.isDigit || c = '_'

/-- The code-point ranges matched by the `NUMBER` pattern's `\d`.  The master
regex is compiled without `re.ASCII`, so on a `str` pattern `\d` matches
every Unicode decimal digit — general category `Nd` (Unicode 14.0, the
database of the CPython the script targets), 62 runs of consecutive code
points — not just `0`-`9`. -/
def ndRanges : List (Nat × Nat) :=
  [(48, 57), (1632, 1641), (1776, 1785), (1984, 1993), (2406, 2415),
   (2534, 2543), (2662, 2671), (2790, 2799), (2918, 2927), (3046, 3055),
   (3174, 3183), (3302, 3311), (3430, 3439), (3558, 3567), (3664, 3673),
   (3792, 3801), (3872, 3881), (4160, 4169), (4240, 4249), (6112, 6121),
   (6160, 6169), (6470, 6479), (6608, 6617), (6784, 6793), (6800, 6809),
   (6992, 7001), (7088, 7097), (7232, 7241), (7248, 7257), (42528, 42537),
   (43216, 43225), (43264, 43273), (43472, 43481), (43504, 43513),
   (43600, 43609), (44016, 44025), (65296, 65305), (66720, 66729),
   (68912, 68921), (69734, 69743), (69872, 69881), (69942, 69951),
   (70096, 70105), (70384, 70393), (70736, 70745), (70864, 70873),
   (71248, 71257), (71360, 71369), (71472, 71481), (71904, 71913),
   (72016, 72025), (72784, 72793), (73040, 73049), (73120, 73129),
   (92768, 92777), (92864, 92873), (93008, 93017), (120782, 120831),
   (123200, 123209), (123632, 123641), (125264, 125273), (130032, 130041)]

/-- `\d` of the source's master regex: a Unicode decimal digit. -/
def pyDigit (c : Char) : Bool :=
  ndRanges.any fun r => r.1 ≤ c.toNat && c.toNat ≤ r.2

/-- `NUMBER`: `\d+(?:\.\d+)?`.  Returns the match length. -/
def tryNumber (cs : List Char) : Option Nat :=
  let ds := cs.takeWhile pyDigit
  if ds.length = 0 then none
  else
    match cs.drop ds.length with
    | '.' :: rest =>
      let fs := rest.takeWhile pyDigit
      if fs.length = 0 then some ds.length
      else some (ds.length + 1 + fs.length)
    | _ => some ds.length

/-- Body scan for `STRING`: `"(?:\\.|[^"\\])*"`.  Returns the number of
characters consumed after the opening quote, including the closing quote.
`\\.` is tried before `[^"\\]`; since `.` does not match a newline, a
backslash immediately followed by a newline (or at end of input) ends the
attempt with no match, exactly as the regex does. -/
def stringBody : List Char → Option Nat
  | [] => none
  | '\"' :: _ => some 1
  | '\\' :: [] => none
  | '\\' :: d :: rest =>
    if d = '\n' then none
    else (stringBody rest).map (· + 2)
  | _ :: rest => (stringBody rest).map (· + 1)

/-- `STRING` match length (quotes included). -/
def tryString (cs : List Char) : Option Nat :=
  match cs with
  | '\"' :: rest => (stringBody rest).map (· + 1)
  | _ => none

/-- `ID`: `[A-Za-z_][A-Za-z0-9_]*`. -/
def tryId (cs : List Char) : Option Nat :=
  match cs with
  | c :: rest =>
    if isIdStart c then some (1 + (rest.takeWhile isIdCont).length) else none
  | [] => none

/-- `OP`: the six two-character operators in order, then the single-character
class. -/
def tryOp (cs : List Char) : Option Nat :=
  match cs with
  | c :: d :: _ =>
    if opDoubles.contains (c, d) then some 2
    else if opSingles.contains c then some 1
    else none
  | c :: [] =>
    if opSingles.contains c then some 1 else none
  | [] => none

/-- `WS`: `[ \t\r\n]+`. -/
def tryWs (cs : List Char) : Option Nat :=
  match cs with
  | c :: _ =>
    if isWsChar c then some ((cs.takeWhile isWsChar).length) else none
  | [] => none

/-- `COMMENT`: `//[^\n]*`.  Dead in practice: the `OP` branch is tried first
and its class contains `/`, so `//` always lexes as two `OP` tokens. -/
def tryComment (cs : List Char) : Option Nat :=
  match cs with
  | '/' :: '/' :: rest => some (2 + (rest.takeWhile (· ≠ '\n')).length)
  | _ => none

/-- One attempt of the master alternation at the head of `cs`: branches in
`TOKEN_SPEC` order, first match wins.  Returns the branch name and length. -/
def matchAt (cs : List Char) : Option (String × Nat) :=
  match tryNumber cs with
  | some n => some ("NUMBER", n)
  | none =>
  match tryString cs with
  | some n => some ("STRING", n)
  | none =>
  match tryId cs with
  | some n => some ("ID", n)
  | none =>
  match tryOp cs with
  | some n => some ("OP", n)
  | none =>
  match tryWs cs with
  | some n => some ("WS", n)
  | none =>
  match tryComment cs with
  | some n => some ("COMMENT", n)
  | none => none

/-- The `finditer` loop of `lex`: on a match, skip `WS`/`COMMENT`, reclassify
keyword identifiers (`k=v.upper()`), and record the token with its offset;
at a position where no branch matches, step over the character and continue.
`fuel` only needs to cover the remaining character count. -/
def lexLoop : Nat → List Char → Nat → List Token
  | 0, _, _ => []
  | _ + 1, [], _ => []
  | fuel + 1, c :: rest, pos =>
    match matchAt (c :: rest) with
    | none => lexLoop fuel rest (pos + 1)
    | some (k, len) =>
      let text : String := String.mk ((c :: rest).take len)
      let toks := lexLoop fuel ((c :: rest).drop len) (pos + len)
      if k = "WS" || k = "COMMENT" then toks
      else if k = "ID" && keywords.contains text then
        { typ := text.toUpper, val := text, pos := pos } :: toks
      else
        { typ := k, val := text, pos := pos } :: toks

/-- `lex` (src/cshs.py lines 28-36): scan and append the `EOF` sentinel at
offset `len(src)`. -/
def lexChars (cs : List Char) : List Token :=
  lexLoop cs.length cs 0 ++ [{ typ := "EOF", val := "", pos := cs.length }]

def lex (s : String) : List Token :=
  lexChars s.data

/-- A character at which some branch of the master alternation could start a
match.  (`&` and `|` are included although they only match when doubled.) -/
def startable (c : Char) : Bool :=
  pyDigit c || c = '\"' || isIdStart c || opSingles.contains c ||
    c = '&' || c = '|' || isWsChar c

/-- Shift a token's source offset. -/
def shiftTok (d : Nat) (t : Token) : Token :=
  { t with pos := t.pos + d }

/-! ## String-literal decoding

`parse_primary` (src/cshs.py lines 70-71) turns a `STRING` token into
`node('string', value=bytes(t.val[1:-1],'utf-8').decode('unicode_escape'))`.
That is: the contents between the quotes are encoded to UTF-8 bytes, and the
bytes are decoded with CPython's `unicode_escape` codec, which processes
backslash escapes and maps every other byte to the code point of its byte
value (Latin-1).
-/

/-- UTF-8 encoding of one code point. -/
def utf8EncodeChar (c : Char) : List Nat :=
  let n := c.toNat
  if n < 128 then [n]
  else if n < 2048 then
    [192 + n / 64, 128 + n % 64]
  else if n < 65536 then
    [224 + n / 4096, 128 + (n / 64) % 64, 128 + n % 64]
  else
    [240 + n / 262144, 128 + (n / 4096) % 64, 128 + (n / 64) % 64, 128 + n % 64]

def utf8Encode (cs : List Char) : List Nat :=
  (cs.map utf8EncodeChar).flatten

def octDigit (b : Nat) : Bool := 48 ≤ b && b ≤ 55

def hexVal (b : Nat) : Option Nat :=
  if 48 ≤ b && b ≤ 57 then some (b - 48)
  else if 97 ≤ b && b ≤ 102 then some (b - 87)
  else if 65 ≤ b && b ≤ 70 then some (b - 55)
  else none

/-- A code point that fits in a Lean `Char`.  CPython's `str` additionally
admits lone surrogates (and `unicode_escape` can produce them via `\uXXXX`);
those decodes are modelled as failures here.  No claim exercises them. -/
def mkChar (n : Nat) : Option Char :=
  if n < 55296 || (57344 ≤ n && n < 1114112) then some (Char.ofNat n) else none

/-- CPython's `unicode_escape` byte decoder.  A non-backslash byte becomes
the code point of its byte value; a backslash starts an escape:
`\n \t \r \\ \' \"` and `\a \b \f \v`, a backslash-newline line
continuation (elided), up to three octal digits, `\xHH`, `\uHHHH`,
`\UHHHHHHHH`, and any other byte is kept together with the backslash.
`\N{name}` needs the Unicode name database and is modelled as a failure
(no claim exercises it); a trailing backslash is an error in CPython too.
The `fuel` argument only bounds the recursion depth: each step consumes at
least one byte, so `bs.length` fuel always suffices (`stringNodeValue`
passes exactly that). -/
def unicodeEscape : Nat → List Nat → Option (List Char)
  | _, [] => some []
  | fuel0, b :: bs =>
    match fuel0 with
    | 0 => none
    | fuel + 1 =>
      if b = 92 then
        match bs with
        | [] => none
        | e :: rest =>
          if e = 110 then (unicodeEscape fuel rest).map (fun t => '\n' :: t)
          else if e = 116 then (unicodeEscape fuel rest).map (fun t => '\t' :: t)
          else if e = 114 then (unicodeEscape fuel rest).map (fun t => '\r' :: t)
          else if e = 92 then (unicodeEscape fuel rest).map (fun t => '\\' :: t)
          else if e = 39 then (unicodeEscape fuel rest).map (fun t => Char.ofNat 39 :: t)
          else if e = 34 then (unicodeEscape fuel rest).map (fun t => '\"' :: t)
          else if e = 97 then (unicodeEscape fuel rest).map (fun t => Char.ofNat 7 :: t)
          else if e = 98 then (unicodeEscape fuel rest).map (fun t => Char.ofNat 8 :: t)
          else if e = 102 then (unicodeEscape fuel rest).map (fun t => Char.ofNat 12 :: t)
          else if e = 118 then (unicodeEscape fuel rest).map (fun t => Char.ofNat 11 :: t)
          else if e = 10 then unicodeEscape fuel rest
          else if octDigit e then
            match rest with
            | d2 :: d3 :: rest2 =>
              if octDigit d2 && octDigit d3 then
                (unicodeEscape fuel rest2).map
                  (fun t => Char.ofNat ((e - 48) * 64 + (d2 - 48) * 8 + (d3 - 48)) :: t)
              else if octDigit d2 then
                (unicodeEscape fuel (d3 :: rest2)).map
                  (fun t => Char.ofNat ((e - 48) * 8 + (d2 - 48)) :: t)
              else
                (unicodeEscape fuel (d2 :: d3 :: rest2)).map
                  (fun t => Char.ofNat (e - 48) :: t)
            | d2 :: [] =>
              if octDigit d2 then
                (unicodeEscape fuel []).map
                  (fun t => Char.ofNat ((e - 48) * 8 + (d2 - 48)) :: t)
              else
                (unicodeEscape fuel (d2 :: [])).map (fun t => Char.ofNat (e - 48) :: t)
            | [] => some [Char.ofNat (e - 48)]
          else if e = 120 then
            match rest with
            | h1 :: h2 :: rest2 =>
              match hexVal h1, hexVal h2 with
              | some a, some b2 =>
                match mkChar (a * 16 + b2) with
                | some c => (unicodeEscape fuel rest2).map (fun t => c :: t)
                | none => none
              | _, _ => none
            | _ => none
          else if e = 117 then
            match rest with
            | h1 :: h2 :: h3 :: h4 :: rest2 =>
              match hexVal h1, hexVal h2, hexVal h3, hexVal h4 with
              | some a, some b2, some c2, some d2 =>
                match mkChar (((a * 16 + b2) * 16 + c2) * 16 + d2) with
                | some c => (unicodeEscape fuel rest2).map (fun t => c :: t)
                | none => none
              | _, _, _, _ => none
            | _ => none
          else if e = 85 then
            match rest with
            | h1 :: h2 :: h3 :: h4 :: h5 :: h6 :: h7 :: h8 :: rest2 =>
              match hexVal h1, hexVal h2, hexVal h3, hexVal h4,
                    hexVal h5, hexVal h6, hexVal h7, hexVal h8 with
              | some a, some b2, some c2, some d2, some a2, some b3, some c3, some d3 =>
                match mkChar (((((((a * 16 + b2) * 16 + c2) * 16 + d2) * 16 + a2) * 16
                    + b3) * 16 + c3) * 16 + d3) with
                | some c => (unicodeEscape fuel rest2).map (fun t => c :: t)
                | none => none
              | _, _, _, _, _, _, _, _ => none
            | _ => none
          else if e = 78 then none
          else
            (unicodeEscape fuel rest).map (fun t => '\\' :: Char.ofNat e :: t)
      else
        (unicodeEscape fuel bs).map (fun t => Char.ofNat b :: t)
  termination_by structural fuel => fuel

/-- The value stored on the `string` AST node for a `STRING` token whose
lexeme is `lexeme` (quotes included): `t.val[1:-1]` encoded to UTF-8 and
decoded with `unicode_escape`. -/
def stringNodeValue (lexeme : String) : Option String :=
  (unicodeEscape (utf8Encode ((lexeme.data.drop 1).dropLast)).length
      (utf8Encode ((lexeme.data.drop 1).dropLast))).map
    fun cs => String.mk cs

/-- Escape characters the spec's claim names: `n`, `t`, `r`, `\`, `"`. -/
def goodEscChar (c : Char) : Bool :=
  c = 'n' || c = 't' || c = 'r' || c = '\\' || c = '\"'

/-- The conventional decoding of one of the five claimed escapes. -/
def decodeEsc (c : Char) : Char :=
  if c = 'n' then '\n' else if c = 't' then '\t' else if c = 'r' then '\r' else c

/-- Scanner for `GoodLit`; the flag records that a backslash was just
read and an escape character is expected. -/
def goodLitAux : Bool → List Char → Bool
  | false, [] => true
  | true, [] => false
  | false, c :: rest =>
    if c = '\\' then goodLitAux true rest
    else decide (c.toNat < 128) && goodLitAux false rest
  | true, d :: rest => goodEscChar d && goodLitAux false rest

/-- Literal contents that are ASCII-only and use only the five claimed
escapes. -/
def GoodLit (cs : List Char) : Bool := goodLitAux false cs

/-- Scanner for `specDecode`; the flag records that a backslash was just
read. -/
def specDecodeAux : Bool → List Char → List Char
  | false, [] => []
  | true, [] => ['\\']
  | false, c :: rest =>
    if c = '\\' then specDecodeAux true rest
    else c :: specDecodeAux false rest
  | true, d :: rest => decodeEsc d :: specDecodeAux false rest

/-- The decoding the claim describes, written from the spec's words: decode
exactly the five escapes `\n \t \r \\ \"` and preserve every other code
point unchanged.  To be compared against `stringNodeValue`. -/
def specDecode (cs : List Char) : List Char := specDecodeAux false cs

/-! ## Runtime values and state

`Runtime` (src/cshs.py lines 237-359) manipulates Python dicts and `CSList`
objects by reference.  Environments and sequences are therefore stored in the
state (`envs`, `lists`) and passed around as indices, so that the source's
aliasing — `env=rt.globals` at top level, `new_env=dict(self.globals)` at a
call, shared `CSList` objects — is preserved.  `envs[0]` is `rt.globals`.
-/

/-- The callables of `load_stdlib`: `Console.WriteLine`, `Console.ReadLine`
and the `List` constructor. -/
inductive Builtin where
  | writeLine
  | readLine
  | listCtor
deriving DecidableEq

/-- Runtime values: host `None`, `bool`, `int`, `float`, `str`, a `CSList`
reference, the `ConsoleNS` instance, and the stdlib callables. -/
inductive Value where
  | vnone
  | vbool (b : Bool)
  | vint (n : Int)
  | vfloat (x : Float)
  | vstr (s : String)
  | vlist (ref : Nat)
  | vconsole
  | vbuiltin (b : Builtin)

/-- First-match association-list lookup (one entry per key throughout). -/
def alistLookup {α : Type} : List (String × α) → String → Option α
  | [], _ => none
  | (k, v) :: rest, k' => if k = k' then some v else alistLookup rest k'

/-- Dict update: replace in place, else append — matching insertion-ordered
Python dicts. -/
def alistSet {α : Type} : List (String × α) → String → α → List (String × α)
  | [], k, v => [(k, v)]
  | (k', v') :: rest, k, v =>
    if k' = k then (k, v) :: rest else (k', v') :: alistSet rest k v

abbrev Env := List (String × Value)

def envLookup (env : Env) (k : String) : Option Value := alistLookup env k

def envContains (env : Env) (k : String) : Bool := (envLookup env k).isSome

/-! ### AST

The source's dict-shaped nodes (`node(kind, ...)`, src/cshs.py line 56) as a
sum type.  Operator names stay strings because the evaluator dispatches on
the string (`ops[op]`). -/

inductive Expr where
  | number (v : Value)
  | strLit (s : String)
  | boolLit (b : Bool)
  | var (name : String)
  | call (callee : String) (args : List Expr)
  | index (target : String) (idx : Expr)
  | unary (op : String) (e : Expr)
  | bin (op : String) (l : Expr) (r : Expr)

/-- The `for` init slot: `parse_for` stores either a `vardecl` statement
node or a bare expression node. -/
inductive ForInit where
  | initDecl (typ name : String) (init : Option Expr)
  | initExpr (e : Expr)

inductive Stmt where
  | block (body : List Stmt)
  | vardecl (typ name : String) (init : Option Expr)
  | assign (target : Expr) (value : Expr)
  | exprStmt (e : Expr)
  | ifS (cond : Expr) (thenS : Stmt) (elseS : Option Stmt)
  | whileS (cond : Expr) (body : Stmt)
  | forS (init : Option ForInit) (cond : Option Expr) (post : Option Expr) (body : Stmt)
  | foreachS (name : String) (seqName : String) (body : Stmt)
  | retS (value : Option Expr)
  | funcS (name : String) (params : List String) (body : List Stmt) (rettype : String)

/-- A registered function: the fields of its `func` node that the evaluator
uses (`params`, the block's `body`, and the unused declared return type). -/
structure FnDef where
  params : List String
  body : List Stmt
  rettype : String

/-- Interpreter state: environment store (`envs[0]` is `rt.globals`),
`CSList` store, the function table, and the console streams. -/
structure State where
  envs : List Env
  lists : List (List Value)
  funcs : List (String × FnDef)
  output : List String
  input : List String

def getEnv (s : State) (r : Nat) : Env := s.envs.getD r []

def setEnv (s : State) (r : Nat) (env : Env) : State :=
  { s with envs := s.envs.set r env }

/-- `env[name] = v` on the dict numbered `r`. -/
def envWrite (s : State) (r : Nat) (k : String) (v : Value) : State :=
  setEnv s r (alistSet (getEnv s r) k v)

/-- Allocate a fresh environment dict (e.g. `dict(self.globals)`). -/
def allocEnv (s : State) (env : Env) : State × Nat :=
  ({ s with envs := s.envs ++ [env] }, s.envs.length)

def getListH (s : State) (ref : Nat) : List Value := s.lists.getD ref []

def setListH (s : State) (ref : Nat) (xs : List Value) : State :=
  { s with lists := s.lists.set ref xs }

/-- Allocate a fresh `CSList`. -/
def allocListWith (s : State) (xs : List Value) : State × Nat :=
  ({ s with lists := s.lists ++ [xs] }, s.lists.length)

def writeOut (s : State) (line : String) : State :=
  { s with output := s.output ++ [line] }

/-- Runtime failures.  Each constructor is the host exception `Runtime`
can raise. -/
inductive RtErr where
  | nameError (n : String)
  | typeError
  | attributeError (a : String)
  | indexError
  | zeroDivisionError
  | keyError (k : String)
  | runtimeError (m : String)
  | uncaughtReturn
deriving DecidableEq

/-- Outcome of a fuel-indexed computation.  `timeout` means the fuel ran
out (the Python program would still be running, or the host recursion
limit was reached). -/
inductive Res (α : Type) where
  | ok (a : α)
  | err (e : RtErr)
  | timeout

/-! ### Python operator semantics on values -/

def truthy (s : State) : Value → Bool
  | .vnone => false
  | .vbool b => b
  | .vint n => decide (n ≠ 0)
  | .vfloat x => !(x == 0)
  | .vstr a => !(a = "")
  | .vlist r => decide ((getListH s r).length ≠ 0)
  | .vconsole => true
  | .vbuiltin _ => true

/-- A Python number (`bool` counts as its integer value). -/
inductive PyNum where
  | i (n : Int)
  | f (x : Float)

def toNum : Value → Option PyNum
  | .vbool b => some (.i (if b then 1 else 0))
  | .vint n => some (.i n)
  | .vfloat x => some (.f x)
  | _ => none

def numVal : PyNum → Value
  | .i n => .vint n
  | .f x => .vfloat x

def toF : PyNum → Float
  | .i n => Float.ofInt n
  | .f x => x

def numAdd : PyNum → PyNum → PyNum
  | .i a, .i b => .i (a + b)
  | a, b => .f (toF a + toF b)

def numSub : PyNum → PyNum → PyNum
  | .i a, .i b => .i (a - b)
  | a, b => .f (toF a - toF b)

def numMul : PyNum → PyNum → PyNum
  | .i a, .i b => .i (a * b)
  | a, b => .f (toF a * toF b)

def numIsZero : PyNum → Bool
  | .i n => decide (n = 0)
  | .f x => x == 0

/-- `/` is true division: `int / int` is a host float.  `Float.ofInt`
rounds each operand first, an approximation of the host's correctly-rounded
quotient; no claim exercises division. -/
def numDiv (a b : PyNum) : Value := .vfloat (toF a / toF b)

/-- `%` is floored modulo on integers (`Int.fmod` has the divisor's sign,
like the host); on floats `a - b * floor (a / b)`. -/
def numMod : PyNum → PyNum → Value
  | .i a, .i b => .vint (Int.fmod a b)
  | a, b => .vfloat (toF a - toF b * Float.floor (toF a / toF b))

def numLt : PyNum → PyNum → Bool
  | .i a, .i b => decide (a < b)
  | a, b => decide (toF a < toF b)

def numLe : PyNum → PyNum → Bool
  | .i a, .i b => decide (a ≤ b)
  | a, b => decide (toF a ≤ toF b)

def numEq : PyNum → PyNum → Bool
  | .i a, .i b => decide (a = b)
  | a, b => toF a == toF b

mutual

/-- Python `==`.  Numbers compare across kinds, sequences compare
structurally through the store, values of different kinds compare unequal
(host identity fallback).  `none` models the host recursion limit on
cyclically nested stores; it is unreachable for the states in this file. -/
def pyEq : Nat → State → Value → Value → Option Bool
  | 0, _, _, _ => none
  | fuel + 1, s, a, b =>
    match toNum a, toNum b with
    | some x, some y => some (numEq x y)
    | _, _ =>
      match a, b with
      | .vstr x, .vstr y => some (decide (x = y))
      | .vnone, .vnone => some true
      | .vlist x, .vlist y => pyEqList fuel s (getListH s x) (getListH s y)
      | .vconsole, .vconsole => some true
      | .vbuiltin x, .vbuiltin y => some (decide (x = y))
      | _, _ => some false
  termination_by structural fuel => fuel

/-- Elementwise list equality (length mismatch is `False`). -/
def pyEqList : Nat → State → List Value → List Value → Option Bool
  | 0, _, _, _ => none
  | _ + 1, _, [], [] => some true
  | fuel + 1, s, x :: xs, y :: ys =>
    match pyEq fuel s x y with
    | some true => pyEqList fuel s xs ys
    | some false => some false
    | none => none
  | _ + 1, _, _, _ => some false
  termination_by structural fuel => fuel

end

mutual

/-- Python `<`: numbers, strings lexicographically, lists lexicographically
through the store; anything else is a `TypeError`. -/
def pyLt : Nat → State → Value → Value → Res Bool
  | 0, _, _, _ => .timeout
  | fuel + 1, s, a, b =>
    match toNum a, toNum b with
    | some x, some y => .ok (numLt x y)
    | _, _ =>
      match a, b with
      | .vstr x, .vstr y => .ok (decide (x < y))
      | .vlist x, .vlist y => pyLtList fuel s (getListH s x) (getListH s y)
      | _, _ => .err .typeError
  termination_by structural fuel => fuel

/-- Lexicographic `<` on lists: the first non-equal pair decides. -/
def pyLtList : Nat → State → List Value → List Value → Res Bool
  | 0, _, _, _ => .timeout
  | _ + 1, _, [], [] => .ok false
  | _ + 1, _, [], _ :: _ => .ok true
  | _ + 1, _, _ :: _, [] => .ok false
  | fuel + 1, s, x :: xs, y :: ys =>
    match pyEq fuel s x y with
    | some true => pyLtList fuel s xs ys
    | some false => pyLt fuel s x y
    | none => .timeout
  termination_by structural fuel => fuel

end

mutual

def pyLe : Nat → State → Value → Value → Res Bool
  | 0, _, _, _ => .timeout
  | fuel + 1, s, a, b =>
    match toNum a, toNum b with
    | some x, some y => .ok (numLe x y)
    | _, _ =>
      match a, b with
      | .vstr x, .vstr y => .ok (decide (x ≤ y))
      | .vlist x, .vlist y => pyLeList fuel s (getListH s x) (getListH s y)
      | _, _ => .err .typeError
  termination_by structural fuel => fuel

def pyLeList : Nat → State → List Value → List Value → Res Bool
  | 0, _, _, _ => .timeout
  | _ + 1, _, [], _ => .ok true
  | _ + 1, _, _ :: _, [] => .ok false
  | fuel + 1, s, x :: xs, y :: ys =>
    match pyEq fuel s x y with
    | some true => pyLeList fuel s xs ys
    | some false => pyLe fuel s x y
    | none => .timeout
  termination_by structural fuel => fuel

end

/-- An index-like value (`bool` subclasses `int` on the host). -/
def asIdx : Value → Option Int
  | .vint n => some n
  | .vbool b => some (if b then 1 else 0)
  | _ => none

def strRepeat (a : String) (n : Int) : String :=
  String.join (List.replicate n.toNat a)

def listRepeat (xs : List Value) (n : Int) : List Value :=
  (List.replicate n.toNat xs).flatten

def pyAdd (s : State) (l r : Value) : Res (State × Value) :=
  match toNum l, toNum r with
  | some a, some b => .ok (s, numVal (numAdd a b))
  | _, _ =>
    match l, r with
    | .vstr a, .vstr b => .ok (s, .vstr (a ++ b))
    | .vlist a, .vlist b =>
      let p := allocListWith s (getListH s a ++ getListH s b)
      .ok (p.1, .vlist p.2)
    | _, _ => .err .typeError

def pySub (s : State) (l r : Value) : Res (State × Value) :=
  match toNum l, toNum r with
  | some a, some b => .ok (s, numVal (numSub a b))
  | _, _ => .err .typeError

def pyMul (s : State) (l r : Value) : Res (State × Value) :=
  match toNum l, toNum r with
  | some a, some b => .ok (s, numVal (numMul a b))
  | _, _ =>
    match l, r with
    | .vstr a, _ =>
      match asIdx r with
      | some n => .ok (s, .vstr (strRepeat a n))
      | none => .err .typeError
    | _, .vstr b =>
      match asIdx l with
      | some n => .ok (s, .vstr (strRepeat b n))
      | none => .err .typeError
    | .vlist a, _ =>
      match asIdx r with
      | some n =>
        let p := allocListWith s (listRepeat (getListH s a) n)
        .ok (p.1, .vlist p.2)
      | none => .err .typeError
    | _, .vlist b =>
      match asIdx l with
      | some n =>
        let p := allocListWith s (listRepeat (getListH s b) n)
        .ok (p.1, .vlist p.2)
      | none => .err .typeError
    | _, _ => .err .typeError

def pyDiv (s : State) (l r : Value) : Res (State × Value) :=
  match toNum l, toNum r with
  | some a, some b =>
    if numIsZero b then .err .zeroDivisionError else .ok (s, numDiv a b)
  | _, _ => .err .typeError

/-- `%`.  Printf-style string formatting (`str % x`) is not modelled; for
the value kinds at hand it raises `TypeError` on the host as well. -/
def pyMod (s : State) (l r : Value) : Res (State × Value) :=
  match toNum l, toNum r with
  | some a, some b =>
    if numIsZero b then .err .zeroDivisionError else .ok (s, numMod a b)
  | _, _ => .err .typeError

/-- The `ops` dict of `eval_expr` (src/cshs.py lines 304-307), applied to
two already-evaluated operands.  `&&`/`||` compute
`bool(a) and bool(b)` / `bool(a) or bool(b)`; an unknown operator is a
host `KeyError`. -/
def applyBin (fuel : Nat) (s : State) (op : String) (l r : Value) :
    Res (State × Value) :=
  match op with
  | "+" => pyAdd s l r
  | "-" => pySub s l r
  | "*" => pyMul s l r
  | "/" => pyDiv s l r
  | "%" => pyMod s l r
  | "==" =>
    match pyEq fuel s l r with
    | some b => .ok (s, .vbool b)
    | none => .timeout
  | "!=" =>
    match pyEq fuel s l r with
    | some b => .ok (s, .vbool (!b))
    | none => .timeout
  | "<" =>
    match pyLt fuel s l r with
    | .ok b => .ok (s, .vbool b)
    | .err e => .err e
    | .timeout => .timeout
  | ">" =>
    match pyLt fuel s r l with
    | .ok b => .ok (s, .vbool b)
    | .err e => .err e
    | .timeout => .timeout
  | "<=" =>
    match pyLe fuel s l r with
    | .ok b => .ok (s, .vbool b)
    | .err e => .err e
    | .timeout => .timeout
  | ">=" =>
    match pyLe fuel s r l with
    | .ok b => .ok (s, .vbool b)
    | .err e => .err e
    | .timeout => .timeout
  | "&&" => .ok (s, .vbool (truthy s l && truthy s r))
  | "||" => .ok (s, .vbool (truthy s l || truthy s r))
  | _ => .err (.keyError op)

/-- The unary dispatch of `eval_expr` (src/cshs.py line 301): `-`, `!`, `+`;
an unknown operator is a host `KeyError` on the dict subscript. -/
def pyUnary (s : State) (op : String) (v : Value) : Res (State × Value) :=
  match op with
  | "-" =>
    match toNum v with
    | some (.i n) => .ok (s, .vint (-n))
    | some (.f x) => .ok (s, .vfloat (-x))
    | none => .err .typeError
  | "!" => .ok (s, .vbool (!truthy s v))
  | "+" =>
    match toNum v with
    | some a => .ok (s, numVal a)
    | none => .err .typeError
  | _ => .err (.keyError op)

/-- Host index wrap: a negative index counts from the end of a length-`n`
sequence. -/
def pyWrap (i : Int) (n : Nat) : Int := if i < 0 then i + n else i

/-- `tgt[idx]` (src/cshs.py line 298): host indexing with negative wrap on
sequences; a `bool` index counts as `0`/`1`; out of range raises
`IndexError`, a non-integer index or unsubscriptable target `TypeError`. -/
def pyGetItem (s : State) (tgt idx : Value) : Res Value :=
  match tgt with
  | .vlist ref =>
    match asIdx idx with
    | none => .err .typeError
    | some i =>
      let xs := getListH s ref
      let j := pyWrap i xs.length
      if 0 ≤ j ∧ j < (xs.length : Int) then .ok (xs.getD j.toNat .vnone)
      else .err .indexError
  | .vstr a =>
    match asIdx idx with
    | none => .err .typeError
    | some i =>
      let j := pyWrap i a.length
      if 0 ≤ j ∧ j < (a.length : Int) then
        .ok (.vstr (String.singleton (a.data.getD j.toNat ' ')))
      else .err .indexError
  | _ => .err .typeError

/-- `arr[idx] = v` (src/cshs.py line 331): in-place store on a `CSList`;
strings are immutable and everything else unsubscriptable (`TypeError`). -/
def pySetItem (s : State) (tgt idx v : Value) : Res State :=
  match tgt with
  | .vlist ref =>
    match asIdx idx with
    | none => .err .typeError
    | some i =>
      let xs := getListH s ref
      let j := pyWrap i xs.length
      if 0 ≤ j ∧ j < (xs.length : Int) then .ok (setListH s ref (xs.set j.toNat v))
      else .err .indexError
  | _ => .err .typeError

/-! ### Printing (`Console.WriteLine` via `print`) -/

def hexDigit (n : Nat) : Char :=
  if n < 10 then Char.ofNat (48 + n) else Char.ofNat (87 + n)

/-- One character of `repr` of a string, escaped as the host does for the
characters our programs can produce (astral/Unicode non-printables beyond
the C0 range are not modelled). -/
def reprEscape (q : Char) (c : Char) : String :=
  if c = '\\' then "\\\\"
  else if c = q then "\\" ++ String.singleton q
  else if c = '\n' then "\\n"
  else if c = '\r' then "\\r"
  else if c = '\t' then "\\t"
  else if c.toNat < 32 || c.toNat = 127 then
    "\\x" ++ String.singleton (hexDigit (c.toNat / 16)) ++
      String.singleton (hexDigit (c.toNat % 16))
  else String.singleton c

/-- Host `repr` of a string: single-quoted, double-quoted when the contents
hold a single quote but no double quote. -/
def pyReprStrFn (a : String) : String :=
  let q : Char := if a.contains (Char.ofNat 39) && !(a.contains '\"') then '\"'
                  else Char.ofNat 39
  String.singleton q ++ String.join (a.data.map (reprEscape q)) ++ String.singleton q

/-- Host `repr`.  The reprs of `ConsoleNS` and of functions contain a memory
address on the host and are modelled by placeholders; host float formatting
is Lean's.  Neither is exercised by a claim. -/
def pyRepr : Nat → State → Value → String
  | 0, _, _ => "..."
  | fuel + 1, s, v =>
    match v with
    | .vnone => "None"
    | .vbool b => if b then "True" else "False"
    | .vint n => toString n
    | .vfloat x => toString x
    | .vstr a => pyReprStrFn a
    | .vlist r => "[" ++ ", ".intercalate ((getListH s r).map (pyRepr fuel s)) ++ "]"
    | .vconsole => "<ConsoleNS>"
    | .vbuiltin _ => "<function>"

/-- Host `str` as `print` uses it. -/
def pyStr (fuel : Nat) (s : State) (v : Value) : String :=
  match v with
  | .vstr a => a
  | _ => pyRepr fuel s v

/-! ### Standard library -/

/-- `self.stdlib` (src/cshs.py line 256): `Console` and `List`. -/
def stdlibGet : String → Option Value
  | "Console" => some .vconsole
  | "List" => some (.vbuiltin .listCtor)
  | _ => none

/-- `getattr(Console, a)`.  Host default object attributes (dunders) are
not modelled. -/
def consoleAttr : String → Option Builtin
  | "WriteLine" => some .writeLine
  | "ReadLine" => some .readLine
  | _ => none

def getattrV (v : Value) (a : String) : Res Value :=
  match v with
  | .vconsole =>
    match consoleAttr a with
    | some b => .ok (.vbuiltin b)
    | none => .err (.attributeError a)
  | _ => .err (.attributeError a)

/-- The `for part in parts[1:]` getattr chain of the dotted-VarRef case. -/
def getattrChain : Value → List String → Res Value
  | v, [] => .ok v
  | v, a :: rest =>
    match getattrV v a with
    | .ok v' => getattrChain v' rest
    | .err e => .err e
    | .timeout => .timeout

/-- Invoke a stdlib callable on evaluated arguments.  `WriteLine(*args)`
prints the space-joined `str`s of its arguments; `ReadLine()` pops one input
line (empty string at end of input); `List()` allocates a fresh empty
sequence.  Extra arguments to the nullary callables are a host `TypeError`. -/
def callBuiltin (fuel : Nat) (b : Builtin) (vals : List Value) (s : State) :
    Res (State × Value) :=
  match b with
  | .writeLine => .ok (writeOut s (" ".intercalate (vals.map (pyStr fuel s))), .vnone)
  | .readLine =>
    if vals.isEmpty then
      match s.input with
      | [] => .ok (s, .vstr "")
      | l :: rest => .ok ({ s with input := rest }, .vstr l)
    else .err .typeError
  | .listCtor =>
    if vals.isEmpty then
      let p := allocListWith s []
      .ok (p.1, .vlist p.2)
    else .err .typeError

/-- `'.' in name`. -/
def hasDot (s : String) : Bool := s.data.contains '.'

def splitDotsAux : List Char → List Char → List String
  | [], acc => [String.mk acc.reverse]
  | c :: rest, acc =>
    if c = '.' then String.mk acc.reverse :: splitDotsAux rest []
    else splitDotsAux rest (c :: acc)

/-- `name.split('.')`. -/
def splitDots (s : String) : List String := splitDotsAux s.data []

/-- `new_env=dict(self.globals)` followed by
`for name,val in zip(f['params'], args): new_env[name]=val`
(src/cshs.py lines 285-286).  `zip` silently truncates to the shorter of
the two lists: there is no arity check. -/
def bindParams (base : Env) (params : List String) (args : List Value) : Env :=
  (params.zip args).foldl (fun env pv => alistSet env pv.1 pv.2) base

/-! ### The evaluator

`Runtime.eval_expr` / `Runtime.exec_stmt` / `Runtime.exec_block`
(src/cshs.py lines 258-359) as mutually recursive fuel-indexed functions.
The environment argument is the dict's index `r` in the store; a returned
`some v` in a statement result is the `ReturnSignal` carrying `v`
(`None` becomes `Value.vnone`). -/

mutual

def evalExpr : Nat → Nat → Expr → State → Res (State × Value)
  | 0, _, _, _ => .timeout
  | fuel + 1, r, e, s =>
    match e with
    | .number v => .ok (s, v)
    | .strLit a => .ok (s, .vstr a)
    | .boolLit b => .ok (s, .vbool b)
    | .var name =>
      match envLookup (getEnv s r) name with
      | some v => .ok (s, v)
      | none =>
        match envLookup (getEnv s 0) name with
        | some v => .ok (s, v)
        | none =>
          if hasDot name then
            let parts := splitDots name
            match stdlibGet (parts.getD 0 "") with
            | none => .err (.nameError name)
            | some obj =>
              match getattrChain obj (parts.drop 1) with
              | .ok v => .ok (s, v)
              | .err e' => .err e'
              | .timeout => .timeout
          else
            match stdlibGet name with
            | some v => .ok (s, v)
            | none => .err (.nameError name)
    | .call callee args =>
      if hasDot callee && (splitDots callee).getD 0 "" = "Console" then
        match consoleAttr ((splitDots callee).getD 1 "") with
        | none => .err (.attributeError ((splitDots callee).getD 1 ""))
        | some b =>
          match evalArgs fuel r args s with
          | .ok (s₁, vals) => callBuiltin fuel b vals s₁
          | .err e' => .err e'
          | .timeout => .timeout
      else if callee = "List" then
        let p := allocListWith s []
        .ok (p.1, .vlist p.2)
      else
        match alistLookup s.funcs callee with
        | some f =>
          match evalArgs fuel r args s with
          | .ok (s₁, vals) =>
            let p := allocEnv s₁ (bindParams (getEnv s₁ 0) f.params vals)
            match execBlock fuel p.2 f.body p.1 with
            | .ok (s₂, some v) => .ok (s₂, v)
            | .ok (s₂, none) => .ok (s₂, .vnone)
            | .err e' => .err e'
            | .timeout => .timeout
          | .err e' => .err e'
          | .timeout => .timeout
        | none =>
          match envLookup (getEnv s r) callee with
          | some (.vbuiltin b) =>
            match evalArgs fuel r args s with
            | .ok (s₁, vals) => callBuiltin fuel b vals s₁
            | .err e' => .err e'
            | .timeout => .timeout
          | some _ => .err (.nameError callee)
          | none => .err (.nameError callee)
    | .index target idxE =>
      match evalExpr fuel r (.var target) s with
      | .ok (s₁, tgt) =>
        match evalExpr fuel r idxE s₁ with
        | .ok (s₂, iv) =>
          match pyGetItem s₂ tgt iv with
          | .ok v => .ok (s₂, v)
          | .err e' => .err e'
          | .timeout => .timeout
        | .err e' => .err e'
        | .timeout => .timeout
      | .err e' => .err e'
      | .timeout => .timeout
    | .unary op ex =>
      match evalExpr fuel r ex s with
      | .ok (s₁, v) => pyUnary s₁ op v
      | .err e' => .err e'
      | .timeout => .timeout
    | .bin op a b =>
      match evalExpr fuel r a s with
      | .ok (s₁, l) =>
        match evalExpr fuel r b s₁ with
        | .ok (s₂, rv) => applyBin fuel s₂ op l rv
        | .err e' => .err e'
        | .timeout => .timeout
      | .err e' => .err e'
      | .timeout => .timeout
  termination_by structural fuel => fuel

def evalArgs : Nat → Nat → List Expr → State → Res (State × List Value)
  | 0, _, _, _ => .timeout
  | _ + 1, _, [], s => .ok (s, [])
  | fuel + 1, r, e :: rest, s =>
    match evalExpr fuel r e s with
    | .ok (s₁, v) =>
      match evalArgs fuel r rest s₁ with
      | .ok (s₂, vs) => .ok (s₂, v :: vs)
      | .err e' => .err e'
      | .timeout => .timeout
    | .err e' => .err e'
    | .timeout => .timeout
  termination_by structural fuel => fuel

def execStmt : Nat → Nat → Stmt → State → Res (State × Option Value)
  | 0, _, _, _ => .timeout
  | fuel + 1, r, st, s =>
    match st with
    | .block body => execBlock fuel r body s
    | .vardecl _ name init =>
      match init with
      | some e =>
        match evalExpr fuel r e s with
        | .ok (s₁, v) => .ok (envWrite s₁ r name v, none)
        | .err e' => .err e'
        | .timeout => .timeout
      | none => .ok (envWrite s r name .vnone, none)
    | .assign tgt valE =>
      match tgt with
      | .var name =>
        if envContains (getEnv s r) name then
          match evalExpr fuel r valE s with
          | .ok (s₁, v) => .ok (envWrite s₁ r name v, none)
          | .err e' => .err e'
          | .timeout => .timeout
        else if envContains (getEnv s 0) name then
          match evalExpr fuel r valE s with
          | .ok (s₁, v) => .ok (envWrite s₁ 0 name v, none)
          | .err e' => .err e'
          | .timeout => .timeout
        else
          match evalExpr fuel r valE s with
          | .ok (s₁, v) => .ok (envWrite s₁ r name v, none)
          | .err e' => .err e'
          | .timeout => .timeout
      | .index target idxE =>
        match evalExpr fuel r (.var target) s with
        | .ok (s₁, arr) =>
          match evalExpr fuel r idxE s₁ with
          | .ok (s₂, iv) =>
            match evalExpr fuel r valE s₂ with
            | .ok (s₃, v) =>
              match pySetItem s₃ arr iv v with
              | .ok s₄ => .ok (s₄, none)
              | .err e' => .err e'
              | .timeout => .timeout
            | .err e' => .err e'
            | .timeout => .timeout
          | .err e' => .err e'
          | .timeout => .timeout
        | .err e' => .err e'
        | .timeout => .timeout
      | _ => .err (.runtimeError "unknown stmt assign")
    | .exprStmt e =>
      match evalExpr fuel r e s with
      | .ok (s₁, _) => .ok (s₁, none)
      | .err e' => .err e'
      | .timeout => .timeout
    | .ifS cond thenS elseS =>
      match evalExpr fuel r cond s with
      | .ok (s₁, v) =>
        if truthy s₁ v then execStmt fuel r thenS s₁
        else
          match elseS with
          | some st' => execStmt fuel r st' s₁
          | none => .ok (s₁, none)
      | .err e' => .err e'
      | .timeout => .timeout
    | .whileS cond body =>
      match evalExpr fuel r cond s with
      | .ok (s₁, v) =>
        if truthy s₁ v then
          match execStmt fuel r body s₁ with
          | .ok (s₂, none) => execStmt fuel r (.whileS cond body) s₂
          | .ok (s₂, some rv) => .ok (s₂, some rv)
          | .err e' => .err e'
          | .timeout => .timeout
        else .ok (s₁, none)
      | .err e' => .err e'
      | .timeout => .timeout
    | .forS init cond post body =>
      match init with
      | some (.initDecl t n i) =>
        match execStmt fuel r (.vardecl t n i) s with
        | .ok (s₁, none) => forLoop fuel r cond post body s₁
        | .ok (s₁, some rv) => .ok (s₁, some rv)
        | .err e' => .err e'
        | .timeout => .timeout
      | some (.initExpr e) =>
        match evalExpr fuel r e s with
        | .ok (s₁, _) => forLoop fuel r cond post body s₁
        | .err e' => .err e'
        | .timeout => .timeout
      | none => forLoop fuel r cond post body s
    | .foreachS name seqName body =>
      match
        (match envLookup (getEnv s r) seqName with
         | some v => some v
         | none => envLookup (getEnv s 0) seqName) with
      | none => .err .typeError
      | some .vnone => .err .typeError
      | some (.vlist ref) => foreachList fuel r name ref 0 body s
      | some (.vstr a) => foreachStr fuel r name a.data body s
      | some _ => .err .typeError
    | .retS value =>
      match value with
      | some e =>
        match evalExpr fuel r e s with
        | .ok (s₁, v) => .ok (s₁, some v)
        | .err e' => .err e'
        | .timeout => .timeout
      | none => .ok (s, some .vnone)
    | .funcS name params body rettype =>
      .ok ({ s with funcs := alistSet s.funcs name ⟨params, body, rettype⟩ }, none)
  termination_by structural fuel => fuel

def execBlock : Nat → Nat → List Stmt → State → Res (State × Option Value)
  | 0, _, _, _ => .timeout
  | _ + 1, _, [], s => .ok (s, none)
  | fuel + 1, r, st :: rest, s =>
    match execStmt fuel r st s with
    | .ok (s₁, none) => execBlock fuel r rest s₁
    | .ok (s₁, some v) => .ok (s₁, some v)
    | .err e' => .err e'
    | .timeout => .timeout
  termination_by structural fuel => fuel

/-- The `for` loop head: evaluate the condition (`True` when absent). -/
def forLoop : Nat → Nat → Option Expr → Option Expr → Stmt → State →
    Res (State × Option Value)
  | 0, _, _, _, _, _ => .timeout
  | fuel + 1, r, cond, post, body, s =>
    match cond with
    | none => forIter fuel r cond post body s
    | some c =>
      match evalExpr fuel r c s with
      | .ok (s₁, v) =>
        if truthy s₁ v then forIter fuel r cond post body s₁ else .ok (s₁, none)
      | .err e' => .err e'
      | .timeout => .timeout
  termination_by structural fuel => fuel

/-- One `for` iteration: body, then the post expression. -/
def forIter : Nat → Nat → Option Expr → Option Expr → Stmt → State →
    Res (State × Option Value)
  | 0, _, _, _, _, _ => .timeout
  | fuel + 1, r, cond, post, body, s =>
    match execStmt fuel r body s with
    | .ok (s₁, some rv) => .ok (s₁, some rv)
    | .ok (s₁, none) =>
      match post with
      | none => forLoop fuel r cond post body s₁
      | some pe =>
        match evalExpr fuel r pe s₁ with
        | .ok (s₂, _) => forLoop fuel r cond post body s₂
        | .err e' => .err e'
        | .timeout => .timeout
    | .err e' => .err e'
    | .timeout => .timeout
  termination_by structural fuel => fuel

/-- `for val in seq` over a `CSList`: a host list iterator is index-based
and consults the live object each step. -/
def foreachList : Nat → Nat → String → Nat → Nat → Stmt → State →
    Res (State × Option Value)
  | 0, _, _, _, _, _, _ => .timeout
  | fuel + 1, r, name, ref, k, body, s =>
    let xs := getListH s ref
    if k < xs.length then
      match execStmt fuel r body (envWrite s r name (xs.getD k .vnone)) with
      | .ok (s₁, none) => foreachList fuel r name ref (k + 1) body s₁
      | .ok (s₁, some rv) => .ok (s₁, some rv)
      | .err e' => .err e'
      | .timeout => .timeout
    else .ok (s, none)
  termination_by structural fuel => fuel

/-- `for val in s` over a string: one-character strings. -/
def foreachStr : Nat → Nat → String → List Char → Stmt → State →
    Res (State × Option Value)
  | 0, _, _, _, _, _ => .timeout
  | _ + 1, _, _, [], _, s => .ok (s, none)
  | fuel + 1, r, name, c :: rest, body, s =>
    match execStmt fuel r body (envWrite s r name (.vstr (String.singleton c))) with
    | .ok (s₁, none) => foreachStr fuel r name rest body s₁
    | .ok (s₁, some rv) => .ok (s₁, some rv)
    | .err e' => .err e'
    | .timeout => .timeout
  termination_by structural fuel => fuel

end

/-! ### `run_source` (src/cshs.py lines 361-370) -/

def isFunc : Stmt → Bool
  | .funcS _ _ _ _ => true
  | _ => false

def initState (inp : List String) : State :=
  { envs := [[]], lists := [], funcs := [], output := [], input := inp }

/-- Phase (a): `for item in prog['body']: if item['kind']=='func':
rt.exec_stmt(env, item)` — registration only. -/
def runPhaseA (fuel : Nat) : List Stmt → State → Res State
  | [], s => .ok s
  | it :: rest, s =>
    if isFunc it then
      match execStmt fuel 0 it s with
      | .ok (s₁, _) => runPhaseA fuel rest s₁
      | .err e => .err e
      | .timeout => .timeout
    else runPhaseA fuel rest s

/-- Phase (b): execute the non-function items against the globals dict.
A `ReturnSignal` escaping a top-level statement is uncaught on the host. -/
def runPhaseB (fuel : Nat) : List Stmt → State → Res State
  | [], s => .ok s
  | it :: rest, s =>
    if isFunc it then runPhaseB fuel rest s
    else
      match execStmt fuel 0 it s with
      | .ok (s₁, none) => runPhaseB fuel rest s₁
      | .ok (_, some _) => .err .uncaughtReturn
      | .err e => .err e
      | .timeout => .timeout

/-- `run_source`.  After phase (b), `if 'Main' in rt.functions:` the source
builds the call as `node('call','Main',[])` — three positional arguments to
`node(kind, **kw)` (src/cshs.py line 56), which accepts only one.  The host
raises `TypeError` there, before `Main` is ever invoked, so any program that
registers a `Main` crashes at this point. -/
def runSource (fuel : Nat) (body : List Stmt) (inp : List String) :
    Res (State × Value) :=
  match runPhaseA fuel body (initState inp) with
  | .ok s₁ =>
    match runPhaseB fuel body s₁ with
    | .ok s₂ =>
      if (alistLookup s₂.funcs "Main").isSome then .err .typeError
      else .ok (s₂, .vnone)
    | .err e => .err e
    | .timeout => .timeout
  | .err e => .err e
  | .timeout => .timeout

/-- The function table produced by phase (a) for a program body. -/
def registerFuncs (body : List Stmt) (fs : List (String × FnDef)) :
    List (String × FnDef) :=
  body.foldl
    (fun acc it =>
      match it with
      | .funcS name params b rt => alistSet acc name ⟨params, b, rt⟩
      | _ => acc)
    fs

/-! ### Result projections (used to state theorems) -/

def resVal : Res (State × Value) → Option Value
  | .ok (_, v) => some v
  | _ => none

def resErr : Res (State × Value) → Option RtErr
  | .err e => some e
  | _ => none

def resOut : Res (State × Value) → Option (List String)
  | .ok (s, _) => some s.output
  | _ => none

def resGlobal (name : String) : Res (State × Value) → Option Value
  | .ok (s, _) => envLookup (getEnv s 0) name
  | _ => none

/-- A concrete state used for the indexing claims: a single global `x` bound
to the sequence holding `xs`. -/
def idxState (xs : List Value) : State :=
  { envs := [[("x", .vlist 0)]], lists := [xs], funcs := [], output := [],
    input := [] }

/-- A user function with empty parameter list whose body stores `v` at
`x[i]` — surface syntax `void f() { x[i] = v; }`. -/
def mutFn (i : Nat) (v : Value) : FnDef :=
  { params := [], body := [.assign (.index "x" (.number (.vint i))) (.number v)],
    rettype := "void" }

/-- A user function whose body rebinds the name `x` itself —
surface syntax `void g() { x = 99; }`. -/
def rebindFn : FnDef :=
  { params := [], body := [.assign (.var "x") (.number (.vint 99))],
    rettype := "void" }

/-- Caller state for the sharing claim: global `x` bound to the sequence
holding `xs`, with `f` and `g` registered. -/
def sharedState (xs : List Value) (i : Nat) (v : Value) : State :=
  { envs := [[("x", .vlist 0)]], lists := [xs],
    funcs := [("f", mutFn i v), ("g", rebindFn)], output := [], input := [] }

/-! ## Theorems -/

/-! ### Association-list helper lemmas -/

theorem alistLookup_set_self {α : Type} (l : List (String × α)) (k : String) (v : α) :
    alistLookup (alistSet l k v) k = some v := by
  induction l with
  | nil => simp [alistSet, alistLookup]
  | cons kv rest ih =>
    by_cases h : kv.1 = k
    · simp [alistSet, alistLookup, h]
    · simp [alistSet, alistLookup, h, ih]

theorem alistLookup_set_ne {α : Type} (l : List (String × α)) (k k' : String) (v : α)
    (h : k' ≠ k) :
    alistLookup (alistSet l k v) k' = alistLookup l k' := by
  induction l with
  | nil => simp [alistSet, alistLookup, Ne.symm h]
  | cons kv rest ih =>
    by_cases hk : kv.1 = k
    · simp [alistSet, alistLookup, hk, Ne.symm h]
    · by_cases hk' : kv.1 = k'
      · simp [alistSet, alistLookup, hk, hk', h]
      · simp [alistSet, alistLookup, hk, hk', ih]

theorem registerFuncs_mono (body : List Stmt) (fs : List (String × FnDef))
    (n : String) (h : (alistLookup fs n).isSome = true) :
    (alistLookup (registerFuncs body fs) n).isSome = true := by
  induction body generalizing fs with
  | nil => exact h
  | cons it rest ih =>
    match it with
    | .funcS n' ps b rt =>
      by_cases hn : n' = n
      · subst hn
        exact ih _ (by simp [registerFuncs, alistLookup_set_self])
      · refine ih _ ?_
        simpa [registerFuncs, alistLookup_set_ne _ _ _ _ (Ne.symm hn)] using h
    | .block b => exact ih _ h
    | .vardecl t nm i => exact ih _ h
    | .assign t v => exact ih _ h
    | .exprStmt e => exact ih _ h
    | .ifS c t e => exact ih _ h
    | .whileS c b => exact ih _ h
    | .forS i c p b => exact ih _ h
    | .foreachS nm sq b => exact ih _ h
    | .retS v => exact ih _ h

/-! ### Claim theorems -/

/-- Claim C1 (code-bug evidence).  A program whose top level registers
`Main` does not have `Main` called: `run_source` builds the call expression
as `node('call','Main',[])`, passing three positional arguments to
`node(kind, **kw)`, so the host raises `TypeError` right after phase (b).
A program without `Main` ends with no explicit result (`None`). -/
theorem mainCall_crashes :
    resErr (runSource 10 [.funcS "Main" [] [.retS (some (.number (.vint 42)))] "int"] []) =
      some .typeError ∧
    resVal (runSource 10 [.exprStmt (.number (.vint 1))] []) = some .vnone :=
  ⟨rfl, rfl⟩

/-- Claim C2 (counterexample).  Running `false && Console.WriteLine("se");`
produces the output line `se`: the right operand of `&&` is evaluated and
its side effect occurs even though the left operand is falsy, contradicting
the claimed short-circuit. -/
theorem shortCircuit_cex :
    resOut (runSource 20 [.exprStmt (.bin "&&" (.boolLit false)
      (.call "Console.WriteLine" [.strLit "se"]))] []) = some ["se"] :=
  rfl

/-- Claim C3 (code-bug evidence).  Running `var xs = List(); xs.add(10);`
raises `NameError('xs.add')`: the `Call` path never routes a dotted callee
to a Sequence member, so the `CSList` methods `push_back`/`add`/`size` are
unreachable. -/
theorem seqMember_nameError :
    resErr (runSource 20 [.vardecl "var" "xs" (some (.call "List" [])),
      .exprStmt (.call "xs.add" [.number (.vint 10)])] []) =
      some (.nameError "xs.add") :=
  rfl

/-- Claim C4 (counterexample).  Lexing `"@x"` yields only the identifier
token for `x` (at offset 1) and the end-of-input sentinel: the unrecognized
`@` at offset 0 is silently skipped and lexing continues — no lexical error
is reported. -/
theorem lex_skips_cex :
    lex "@x" = [{ typ := "ID", val := "x", pos := 1 },
                { typ := "EOF", val := "", pos := 2 }] :=
  rfl

/-- Claim C5 (counterexample).  `int f(int a, int b) { return 1; }` called
as `f(5)` — one argument for two parameters — does not raise any error:
`zip` truncates the binding and the call returns `1`, which lands in `r`. -/
theorem arity_mismatch_cex :
    resGlobal "r" (runSource 20
      [.funcS "f" ["a", "b"] [.retS (some (.number (.vint 1)))] "int",
       .vardecl "var" "r" (some (.call "f" [.number (.vint 5)]))] []) =
      some (.vint 1) :=
  rfl

/-- Claim C6 (counterexample).  With `x` bound to the two-element sequence
`[10, 20]`, the read `x[-1]` succeeds and yields `20` (host negative-index
wrap-around), contradicting the claim that every negative index fails. -/
theorem negative_index_cex :
    evalExpr 2 0 (.index "x" (.number (.vint (-1))))
        (idxState [.vint 10, .vint 20]) =
      .ok (idxState [.vint 10, .vint 20], .vint 20) :=
  rfl

/-- Claim C7 (counterexample).  The literal `"é"` decodes to `"Ã©"`, not
`"é"`: the source re-decodes the literal's UTF-8 bytes with
`unicode_escape`, which maps each byte to a Latin-1 code point, so non-ASCII
code points are not preserved. -/
theorem decode_mangles_nonascii_cex :
    stringNodeValue "\"é\"" = some "Ã©" ∧ stringNodeValue "\"é\"" ≠ some "é" :=
  ⟨rfl, by decide⟩

/-- Claim C8 (confirmed).  Phase (a) of `run_source` always succeeds,
registers exactly the top-level `FuncDecl` items in the function table, and
changes nothing else (so no non-function statement has executed yet); every
top-level `FuncDecl` is registered after it; and the concrete hoisting
program `var r = f(); int f() { return 7; }` runs with `r = 7`. -/
theorem hoisting_registers_first :
    (∀ (fuel : Nat) (body : List Stmt) (s : State),
        runPhaseA (fuel + 1) body s =
          .ok { s with funcs := registerFuncs body s.funcs }) ∧
    (∀ (body : List Stmt) (fs : List (String × FnDef)) (n : String)
        (ps : List String) (b : List Stmt) (rt : String),
        Stmt.funcS n ps b rt ∈ body →
          (alistLookup (registerFuncs body fs) n).isSome = true) ∧
    resGlobal "r" (runSource 20
      [.vardecl "var" "r" (some (.call "f" [])),
       .funcS "f" [] [.retS (some (.number (.vint 7)))] "int"] []) =
      some (.vint 7) := by
  refine ⟨?_, ?_, rfl⟩
  · intro fuel body
    induction body with
    | nil => intro s; rfl
    | cons it rest ih =>
      intro s
      match it with
      | .funcS n ps b rt => simp [runPhaseA, isFunc, execStmt, registerFuncs, ih]
      | .block b => simpa [runPhaseA, isFunc, registerFuncs] using ih s
      | .vardecl t nm i => simpa [runPhaseA, isFunc, registerFuncs] using ih s
      | .assign t v => simpa [runPhaseA, isFunc, registerFuncs] using ih s
      | .exprStmt e => simpa [runPhaseA, isFunc, registerFuncs] using ih s
      | .ifS c t e => simpa [runPhaseA, isFunc, registerFuncs] using ih s
      | .whileS c b => simpa [runPhaseA, isFunc, registerFuncs] using ih s
      | .forS i c p b => simpa [runPhaseA, isFunc, registerFuncs] using ih s
      | .foreachS nm sq b => simpa [runPhaseA, isFunc, registerFuncs] using ih s
      | .retS v => simpa [runPhaseA, isFunc, registerFuncs] using ih s
  · intro body
    induction body with
    | nil => intro fs n ps b rt h; simp at h
    | cons it rest ih =>
      intro fs n ps b rt h
      rcases List.mem_cons.mp h with h1 | h2
      · subst h1
        exact registerFuncs_mono rest _ n (by simp [alistLookup_set_self])
      · exact ih _ n ps b rt h2

/-- Claim C8 witness: the general parts applied at a concrete program. -/
theorem hoisting_registers_first_wit :
    runPhaseA 1 [Stmt.funcS "f" [] [] "void"] (initState []) =
      .ok { initState [] with
              funcs := registerFuncs [Stmt.funcS "f" [] [] "void"] [] } ∧
    (alistLookup (registerFuncs [Stmt.funcS "f" [] [] "void"] []) "f").isSome = true :=
  ⟨hoisting_registers_first.1 0 [Stmt.funcS "f" [] [] "void"] (initState []),
   hoisting_registers_first.2.1 [Stmt.funcS "f" [] [] "void"] [] "f" [] [] "void"
     (by simp)⟩

theorem applyBin_and (fuel : Nat) (s : State) (l r : Value) :
    applyBin fuel s "&&" l r = .ok (s, .vbool (truthy s l && truthy s r)) := rfl

theorem applyBin_or (fuel : Nat) (s : State) (l r : Value) :
    applyBin fuel s "||" l r = .ok (s, .vbool (truthy s l || truthy s r)) := rfl

/-- Claim C2 (amended).  Evaluating `a && b` or `a || b` always evaluates
both operands, left then right — the state `s₂` reached after evaluating `b`
is the state of the result, so `b`'s side effects always occur — and the
value is the boolean conjunction/disjunction of the two truthinesses. -/
theorem andor_evaluates_both (fuel r : Nat) (a b : Expr) (s s₁ s₂ : State)
    (va vb : Value)
    (ha : evalExpr fuel r a s = .ok (s₁, va))
    (hb : evalExpr fuel r b s₁ = .ok (s₂, vb)) :
    evalExpr (fuel + 1) r (.bin "&&" a b) s =
      .ok (s₂, .vbool (truthy s₂ va && truthy s₂ vb)) ∧
    evalExpr (fuel + 1) r (.bin "||" a b) s =
      .ok (s₂, .vbool (truthy s₂ va || truthy s₂ vb)) := by
  constructor <;> simp [evalExpr, ha, hb, applyBin_and, applyBin_or]

/-- Claim C2 witness: `false && Console.WriteLine("se")` evaluated through
the theorem — the write to standard output happens although the left
operand is falsy. -/
theorem andor_evaluates_both_wit :
    evalExpr 4 0 (.bin "&&" (.boolLit false)
        (.call "Console.WriteLine" [.strLit "se"])) (initState []) =
      .ok (writeOut (initState []) "se", .vbool false) :=
  (andor_evaluates_both 3 0 (.boolLit false)
    (.call "Console.WriteLine" [.strLit "se"]) (initState []) (initState [])
    (writeOut (initState []) "se") (.vbool false) .vnone rfl rfl).1

/-! ### Lexer lemmas for claim C4 -/

theorem matchAt_none_of_not_startable (c : Char) (cs : List Char)
    (h : startable c = false) : matchAt (c :: cs) = none := by
  simp only [startable, Bool.or_eq_false_iff] at h
  obtain ⟨⟨⟨⟨⟨⟨hdig, hq⟩, hid⟩, hop⟩, hamp⟩, hbar⟩, hws⟩ := h
  have hq' : c ≠ '\"' := by simpa using hq
  have hop' : c ∉ opSingles := by simpa using hop
  have hamp' : c ≠ '&' := by simpa using hamp
  have hbar' : c ≠ '|' := by simpa using hbar
  have hnum : tryNumber (c :: cs) = none := by
    simp [tryNumber, List.takeWhile, hdig]
  have hstr : tryString (c :: cs) = none := by
    unfold tryString
    split
    · rename_i heq
      rw [List.cons.injEq] at heq
      obtain ⟨h1, -⟩ := heq
      exact absurd h1 hq'
    · rfl
  have hidn : tryId (c :: cs) = none := by
    simp [tryId, hid]
  have hopn : tryOp (c :: cs) = none := by
    match cs with
    | [] => simp [tryOp, hop']
    | d :: rest =>
      have hdbl : (c, d) ∉ opDoubles := by
        intro hmem
        simp only [opDoubles, List.mem_cons, List.not_mem_nil, or_false] at hmem
        rcases hmem with h1 | h1 | h1 | h1 | h1 | h1 <;> rw [Prod.mk.injEq] at h1 <;>
          first
            | exact hamp' h1.1
            | exact hbar' h1.1
            | exact hop' (by rw [h1.1]; decide)
      simp [tryOp, hdbl, hop']
  have hwsn : tryWs (c :: cs) = none := by
    simp [tryWs, hws]
  have hcom : tryComment (c :: cs) = none := by
    unfold tryComment
    split
    · rename_i heq
      rw [List.cons.injEq] at heq
      obtain ⟨h1, -⟩ := heq
      exact absurd (by rw [h1]; decide : c ∈ opSingles) hop'
    · rfl
  simp [matchAt, hnum, hstr, hidn, hopn, hwsn, hcom]

theorem lexLoop_shift (fuel : Nat) (cs : List Char) (p d : Nat) :
    lexLoop fuel cs (p + d) = (lexLoop fuel cs p).map (shiftTok d) := by
  induction fuel generalizing cs p with
  | zero => simp [lexLoop]
  | succ n ih =>
    match cs with
    | [] => simp [lexLoop]
    | c :: rest =>
      cases hm : matchAt (c :: rest) with
      | none =>
        simp only [lexLoop, hm]
        rw [Nat.add_right_comm p d 1]
        exact ih rest (p + 1)
      | some kl =>
        obtain ⟨k, len⟩ := kl
        simp only [lexLoop, hm]
        rw [Nat.add_right_comm p d len]
        split
        · exact ih _ (p + len)
        · split <;> simp [shiftTok, ih _ (p + len)]

/-- Claim C4 (amended).  At a character where no branch of the token
alternation can match, the lexer reports no error: the character is silently
skipped — the token stream is exactly the stream of the remaining input,
with every offset (including the end-of-input sentinel's) shifted by one. -/
theorem lex_skips_unrecognized (c : Char) (cs : List Char)
    (h : startable c = false) :
    lexChars (c :: cs) = (lexChars cs).map (shiftTok 1) := by
  unfold lexChars
  have hstep : lexLoop (c :: cs).length (c :: cs) 0 = lexLoop cs.length cs 1 := by
    simp only [List.length_cons, lexLoop, matchAt_none_of_not_startable c cs h]
  rw [hstep, show (1 : Nat) = 0 + 1 from rfl, lexLoop_shift cs.length cs 0 1]
  simp [shiftTok]

/-- Claim C4 witness: the theorem applied at `@` followed by `x`. -/
theorem lex_skips_unrecognized_wit :
    startable '@' = false ∧
    lexChars ('@' :: 'x' :: []) = (lexChars ('x' :: [])).map (shiftTok 1) :=
  ⟨by decide, lex_skips_unrecognized '@' ('x' :: []) (by decide)⟩

/-- Claim C5 (amended).  Parameter binding is `zip`-truncated with no arity
check: every pair of the (possibly truncated) `zip` of parameter names and
evaluated arguments is bound, in order, in the new environment, and every
name outside the parameter list — in particular a parameter beyond the
argument count — keeps its binding from the copied global snapshot (unbound
if it was not there).  When the counts match this is exactly in-order
binding of all parameters. -/
theorem bindParams_binds_in_order (base : Env) (params : List String)
    (args : List Value) (hnd : params.Nodup) :
    (∀ p v, (p, v) ∈ params.zip args →
        envLookup (bindParams base params args) p = some v) ∧
    (∀ k, k ∉ params →
        envLookup (bindParams base params args) k = envLookup base k) := by
  induction params generalizing base args with
  | nil =>
    exact ⟨fun p v h => by simp at h, fun k _ => by simp [bindParams]⟩
  | cons p ps ih =>
    match args with
    | [] =>
      exact ⟨fun q v h => by simp at h, fun k _ => by simp [bindParams]⟩
    | a :: as =>
      have hp : p ∉ ps := (List.nodup_cons.mp hnd).1
      have hnd' : ps.Nodup := (List.nodup_cons.mp hnd).2
      have hfold : bindParams base (p :: ps) (a :: as) =
          bindParams (alistSet base p a) ps as := by
        simp [bindParams]
      constructor
      · intro q v hmem
        rw [List.zip_cons_cons, List.mem_cons] at hmem
        rw [hfold]
        rcases hmem with h1 | h1
        · rw [Prod.mk.injEq] at h1
          obtain ⟨hq, hv⟩ := h1
          subst hq; subst hv
          rw [(ih (alistSet base q v) as hnd').2 q hp]
          exact alistLookup_set_self base q v
        · exact (ih (alistSet base p a) as hnd').1 q v h1
      · intro k hk
        have hkp : k ≠ p := fun he => hk (he ▸ List.mem_cons_self p ps)
        have hkps : k ∉ ps := fun hm => hk (List.mem_cons_of_mem p hm)
        rw [hfold, (ih (alistSet base p a) as hnd').2 k hkps]
        exact alistLookup_set_ne base p k a hkp

/-- Claim C5 witness: binding `["a","b"]` to `[1, 2]` looks up in order,
and an unrelated name falls through to the base environment. -/
theorem bindParams_binds_in_order_wit :
    envLookup (bindParams [] ["a", "b"] [.vint 1, .vint 2]) "a" =
      some (.vint 1) ∧
    envLookup (bindParams [] ["a", "b"] [.vint 1, .vint 2]) "c" =
      envLookup [] "c" :=
  ⟨(bindParams_binds_in_order [] ["a", "b"] [.vint 1, .vint 2] (by decide)).1
     "a" (.vint 1) (by simp),
   (bindParams_binds_in_order [] ["a", "b"] [.vint 1, .vint 2] (by decide)).2
     "c" (by decide)⟩

/-- Claim C6 (amended).  Indexing a Sequence of length `n` with integer `i`
— read or index-assignment — succeeds exactly when the host-wrapped index
`pyWrap i n` (which is `i + n` for negative `i`) lies in `[0, n)`; only then
does it address that element, and otherwise it raises `IndexError`.  In
particular `-n ≤ i < n` succeeds and negative indices count from the end,
rather than every negative index failing. -/
theorem index_negative_wrap (xs : List Value) (i : Int) (v : Value) :
    ((0 ≤ pyWrap i xs.length ∧ pyWrap i xs.length < (xs.length : Int)) →
      evalExpr 2 0 (.index "x" (.number (.vint i))) (idxState xs) =
        .ok (idxState xs, xs.getD (pyWrap i xs.length).toNat .vnone) ∧
      execStmt 2 0 (.assign (.index "x" (.number (.vint i))) (.number v))
          (idxState xs) =
        .ok (setListH (idxState xs) 0 (xs.set (pyWrap i xs.length).toNat v),
          none)) ∧
    (¬(0 ≤ pyWrap i xs.length ∧ pyWrap i xs.length < (xs.length : Int)) →
      evalExpr 2 0 (.index "x" (.number (.vint i))) (idxState xs) =
        .err .indexError ∧
      execStmt 2 0 (.assign (.index "x" (.number (.vint i))) (.number v))
          (idxState xs) = .err .indexError) := by
  have e1 : evalExpr 2 0 (.index "x" (.number (.vint i))) (idxState xs) =
      (match pyGetItem (idxState xs) (.vlist 0) (.vint i) with
       | .ok w => .ok (idxState xs, w)
       | .err e => .err e
       | .timeout => .timeout) := rfl
  have e2 : execStmt 2 0 (.assign (.index "x" (.number (.vint i))) (.number v))
      (idxState xs) =
      (match pySetItem (idxState xs) (.vlist 0) (.vint i) v with
       | .ok s4 => .ok (s4, none)
       | .err e => .err e
       | .timeout => .timeout) := rfl
  have g1 : pyGetItem (idxState xs) (.vlist 0) (.vint i) =
      if 0 ≤ pyWrap i xs.length ∧ pyWrap i xs.length < (xs.length : Int) then
        .ok (xs.getD (pyWrap i xs.length).toNat .vnone)
      else .err .indexError := rfl
  have g2 : pySetItem (idxState xs) (.vlist 0) (.vint i) v =
      if 0 ≤ pyWrap i xs.length ∧ pyWrap i xs.length < (xs.length : Int) then
        .ok (setListH (idxState xs) 0 (xs.set (pyWrap i xs.length).toNat v))
      else .err .indexError := rfl
  constructor
  · intro h
    rw [e1, e2, g1, g2, if_pos h, if_pos h]
    exact ⟨rfl, rfl⟩
  · intro h
    rw [e1, e2, g1, g2, if_neg h, if_neg h]
    exact ⟨rfl, rfl⟩

/-- Claim C6 witness: `x[-2]` on the two-element sequence `[10, 20]` reads
the first element through the theorem's in-range branch. -/
theorem index_negative_wrap_wit :
    evalExpr 2 0 (.index "x" (.number (.vint (-2))))
        (idxState [.vint 10, .vint 20]) =
      .ok (idxState [.vint 10, .vint 20], .vint 10) :=
  ((index_negative_wrap [.vint 10, .vint 20] (-2) .vnone).1 (by decide)).1

/-! ### Decoder lemmas for claim C7 -/

theorem utf8Encode_cons (c : Char) (rest : List Char) :
    utf8Encode (c :: rest) = utf8EncodeChar c ++ utf8Encode rest := by
  simp [utf8Encode]

theorem utf8EncodeChar_ascii (c : Char) (h : c.toNat < 128) :
    utf8EncodeChar c = [c.toNat] := by
  simp [utf8EncodeChar, h]

theorem goodLit_other (c : Char) (rest : List Char) (hc : ¬ c = '\\') :
    GoodLit (c :: rest) = (decide (c.toNat < 128) && GoodLit rest) := by
  show goodLitAux false (c :: rest) = _
  simp only [goodLitAux]
  rw [if_neg hc]
  rfl

theorem specDecode_other (c : Char) (rest : List Char) (hc : ¬ c = '\\') :
    specDecode (c :: rest) = c :: specDecode rest := by
  show specDecodeAux false (c :: rest) = _
  simp only [specDecodeAux]
  rw [if_neg hc]
  rfl

theorem specDecode_esc (d : Char) (rest : List Char) :
    specDecode ('\\' :: d :: rest) = decodeEsc d :: specDecode rest := by
  simp [specDecode, specDecodeAux]

theorem goodLit_esc (d : Char) (rest : List Char) :
    GoodLit ('\\' :: d :: rest) = (goodEscChar d && GoodLit rest) := by
  simp [GoodLit, goodLitAux]

theorem unicodeEscape_nil (fuel : Nat) : unicodeEscape fuel [] = some [] := by
  cases fuel <;> rfl

theorem unicodeEscape_escN (fuel : Nat) (bs : List Nat) :
    unicodeEscape (fuel+1) (92 :: 110 :: bs) =
      (unicodeEscape fuel bs).map (fun t => '\n' :: t) := rfl

theorem unicodeEscape_escT (fuel : Nat) (bs : List Nat) :
    unicodeEscape (fuel+1) (92 :: 116 :: bs) =
      (unicodeEscape fuel bs).map (fun t => '\t' :: t) := rfl

theorem unicodeEscape_escR (fuel : Nat) (bs : List Nat) :
    unicodeEscape (fuel+1) (92 :: 114 :: bs) =
      (unicodeEscape fuel bs).map (fun t => '\r' :: t) := rfl

theorem unicodeEscape_escB (fuel : Nat) (bs : List Nat) :
    unicodeEscape (fuel+1) (92 :: 92 :: bs) =
      (unicodeEscape fuel bs).map (fun t => '\\' :: t) := rfl

theorem unicodeEscape_escQ (fuel : Nat) (bs : List Nat) :
    unicodeEscape (fuel+1) (92 :: 34 :: bs) =
      (unicodeEscape fuel bs).map (fun t => '\"' :: t) := rfl

theorem unicodeEscape_other (fuel b : Nat) (bs : List Nat) (h : ¬ b = 92) :
    unicodeEscape (fuel+1) (b :: bs) =
      (unicodeEscape fuel bs).map (fun t => Char.ofNat b :: t) := by
  have he : unicodeEscape (fuel+1) (b :: bs) =
      if b = 92 then unicodeEscape (fuel+1) (92 :: bs)
      else (unicodeEscape fuel bs).map (fun t => Char.ofNat b :: t) := rfl
  rw [he, if_neg h]

theorem decode_ascii_core : ∀ (n : Nat) (cs : List Char), cs.length ≤ n →
    GoodLit cs = true → ∀ (fuel : Nat), (utf8Encode cs).length ≤ fuel →
    unicodeEscape fuel (utf8Encode cs) = some (specDecode cs) := by
  intro n
  induction n with
  | zero =>
    intro cs hlen _
    match cs with
    | [] =>
      intro fuel _
      show unicodeEscape fuel [] = some (specDecode [])
      rw [unicodeEscape_nil]
      rfl
    | c :: rest => simp at hlen
  | succ m ih =>
    intro cs hlen hg fuel hfuel
    match cs with
    | [] =>
      show unicodeEscape fuel [] = some (specDecode [])
      rw [unicodeEscape_nil]
      rfl
    | c :: rest =>
      by_cases hc : c = '\\'
      · subst hc
        match rest with
        | [] => exact absurd hg (by decide)
        | d :: rest' =>
          rw [goodLit_esc, Bool.and_eq_true] at hg
          obtain ⟨hd, hg'⟩ := hg
          have hlen' : rest'.length ≤ m := by
            simp only [List.length_cons] at hlen
            omega
          simp only [goodEscChar, Bool.or_eq_true, decide_eq_true_eq] at hd
          have hdla : (utf8EncodeChar d).length = 1 := by
            rcases hd with (((hd | hd) | hd) | hd) | hd <;> subst hd <;> rfl
          have hbytes : (utf8Encode ('\\' :: d :: rest')).length =
              2 + (utf8Encode rest').length := by
            rw [utf8Encode_cons, utf8Encode_cons, List.length_append,
              List.length_append, hdla,
              show (utf8EncodeChar '\\').length = 1 from rfl]
            omega
          obtain ⟨f, rfl⟩ : ∃ f, fuel = f + 1 := by
            rw [hbytes] at hfuel
            exact ⟨fuel - 1, by omega⟩
          have hf : (utf8Encode rest').length ≤ f := by
            rw [hbytes] at hfuel
            omega
          have hrest : unicodeEscape f (utf8Encode rest') = some (specDecode rest') :=
            ih rest' hlen' hg' f hf
          rcases hd with (((hd | hd) | hd) | hd) | hd <;> subst hd
          · rw [utf8Encode_cons, utf8Encode_cons,
              show utf8EncodeChar '\\' = [92] from rfl,
              show utf8EncodeChar 'n' = [110] from rfl,
              List.singleton_append, List.singleton_append, specDecode_esc,
              unicodeEscape_escN, hrest]
            rfl
          · rw [utf8Encode_cons, utf8Encode_cons,
              show utf8EncodeChar '\\' = [92] from rfl,
              show utf8EncodeChar 't' = [116] from rfl,
              List.singleton_append, List.singleton_append, specDecode_esc,
              unicodeEscape_escT, hrest]
            rfl
          · rw [utf8Encode_cons, utf8Encode_cons,
              show utf8EncodeChar '\\' = [92] from rfl,
              show utf8EncodeChar 'r' = [114] from rfl,
              List.singleton_append, List.singleton_append, specDecode_esc,
              unicodeEscape_escR, hrest]
            rfl
          · rw [utf8Encode_cons, utf8Encode_cons,
              show utf8EncodeChar '\\' = [92] from rfl,
              List.singleton_append, List.singleton_append, specDecode_esc,
              unicodeEscape_escB, hrest]
            rfl
          · rw [utf8Encode_cons, utf8Encode_cons,
              show utf8EncodeChar '\\' = [92] from rfl,
              show utf8EncodeChar '\"' = [34] from rfl,
              List.singleton_append, List.singleton_append, specDecode_esc,
              unicodeEscape_escQ, hrest]
            rfl
      · rw [goodLit_other c rest hc, Bool.and_eq_true, decide_eq_true_eq] at hg
        obtain ⟨hlt, hg'⟩ := hg
        have hlen' : rest.length ≤ m := by
          simp only [List.length_cons] at hlen
          omega
        have hbytes : (utf8Encode (c :: rest)).length =
            1 + (utf8Encode rest).length := by
          rw [utf8Encode_cons, List.length_append, utf8EncodeChar_ascii c hlt]
          rfl
        obtain ⟨f, rfl⟩ : ∃ f, fuel = f + 1 := by
          rw [hbytes] at hfuel
          exact ⟨fuel - 1, by omega⟩
        have hf : (utf8Encode rest).length ≤ f := by
          rw [hbytes] at hfuel
          omega
        have hrest : unicodeEscape f (utf8Encode rest) = some (specDecode rest) :=
          ih rest hlen' hg' f hf
        have h92 : ¬(c.toNat = 92) := by
          intro hh
          apply hc
          rw [← Char.ofNat_toNat c, hh]
        rw [utf8Encode_cons, utf8EncodeChar_ascii c hlt, List.singleton_append,
          unicodeEscape_other f c.toNat (utf8Encode rest) h92, hrest,
          specDecode_other c rest hc, Char.ofNat_toNat]
        rfl

/-- Claim C7 (amended).  For literal contents that are ASCII and use only
the five claimed escapes, the decode is exactly the conventional one: on
such contents, the source's UTF-8-then-`unicode_escape` round trip agrees
with the decoding described by the claim (`specDecode`), and the token value
of the corresponding quoted lexeme is that decoding. -/
theorem decode_ascii_escapes (cs : List Char) (h : GoodLit cs = true) :
    unicodeEscape (utf8Encode cs).length (utf8Encode cs) = some (specDecode cs) ∧
    stringNodeValue (String.mk ('\"' :: (cs ++ ['\"']))) =
      some (String.mk (specDecode cs)) := by
  have hcore := decode_ascii_core cs.length cs le_rfl h (utf8Encode cs).length le_rfl
  refine ⟨hcore, ?_⟩
  show (unicodeEscape (utf8Encode ((cs ++ ['\"']).dropLast)).length
      (utf8Encode ((cs ++ ['\"']).dropLast))).map
      (fun t => String.mk t) = some (String.mk (specDecode cs))
  rw [List.dropLast_concat, hcore]
  rfl

/-- Claim C7 witness: the contents `a\nb` decode through the theorem. -/
theorem decode_ascii_escapes_wit :
    GoodLit ('a' :: '\\' :: 'n' :: 'b' :: []) = true ∧
    unicodeEscape (utf8Encode ('a' :: '\\' :: 'n' :: 'b' :: [])).length
        (utf8Encode ('a' :: '\\' :: 'n' :: 'b' :: [])) =
      some (specDecode ('a' :: '\\' :: 'n' :: 'b' :: [])) :=
  ⟨by decide,
   (decode_ascii_escapes ('a' :: '\\' :: 'n' :: 'b' :: []) (by decide)).1⟩

/-! ### Environment-write lemmas and claim C9 -/

theorem getD_set_self_gen {α : Type} (xs : List α) (i : Nat) (a d : α)
    (h : i < xs.length) : (xs.set i a).getD i d = a := by
  show ((xs.set i a).get? i).getD d = a
  rw [List.get?_eq_getElem?, List.getElem?_set_self (by simpa using h)]
  rfl

theorem getD_set_ne_gen {α : Type} (xs : List α) (i j : Nat) (a d : α)
    (h : i ≠ j) : (xs.set i a).getD j d = xs.getD j d := by
  show ((xs.set i a).get? j).getD d = (xs.get? j).getD d
  rw [List.get?_eq_getElem?, List.get?_eq_getElem?, List.getElem?_set_ne h]

theorem getEnv_envWrite_self (s : State) (r : Nat) (x : String) (v : Value)
    (h : r < s.envs.length) :
    getEnv (envWrite s r x v) r = alistSet (getEnv s r) x v := by
  show (s.envs.set r (alistSet (getEnv s r) x v)).getD r [] = _
  rw [getD_set_self_gen _ _ _ _ h]

theorem getEnv_envWrite_other (s : State) (r r' : Nat) (x : String)
    (v : Value) (h : r ≠ r') :
    getEnv (envWrite s r x v) r' = getEnv s r' := by
  show (s.envs.set r (alistSet (getEnv s r) x v)).getD r' [] = s.envs.getD r' []
  rw [getD_set_ne_gen _ _ _ _ _ h]

/-- Claim C9 (confirmed).  An Assign to a simple name first tests the name
against the current local dict, then against the globals dict, on the state
in which the statement starts (src/cshs.py lines 320-327).  If the name is
local, the local dict is updated with the evaluated value and the global
dict is untouched by the write; if it is only global, the global dict is
updated and the local dict is untouched by the write; otherwise the binding
is created in the local dict. -/
theorem assign_scoping (x : String) (e : Expr) (fuel r : Nat) (s s₁ : State)
    (v : Value) (hr : r ≠ 0) (hlen : r < s₁.envs.length)
    (h0 : 0 < s₁.envs.length)
    (he : evalExpr fuel r e s = .ok (s₁, v)) :
    (envContains (getEnv s r) x = true →
      execStmt (fuel+1) r (.assign (.var x) e) s =
          .ok (envWrite s₁ r x v, none) ∧
        envLookup (getEnv (envWrite s₁ r x v) r) x = some v ∧
        getEnv (envWrite s₁ r x v) 0 = getEnv s₁ 0) ∧
    (envContains (getEnv s r) x = false →
      envContains (getEnv s 0) x = true →
      execStmt (fuel+1) r (.assign (.var x) e) s =
          .ok (envWrite s₁ 0 x v, none) ∧
        envLookup (getEnv (envWrite s₁ 0 x v) 0) x = some v ∧
        getEnv (envWrite s₁ 0 x v) r = getEnv s₁ r) ∧
    (envContains (getEnv s r) x = false →
      envContains (getEnv s 0) x = false →
      execStmt (fuel+1) r (.assign (.var x) e) s =
          .ok (envWrite s₁ r x v, none) ∧
        envLookup (getEnv (envWrite s₁ r x v) r) x = some v) := by
  refine ⟨fun hc => ⟨?_, ?_, ?_⟩, fun hc hg => ⟨?_, ?_, ?_⟩, fun hc hg => ⟨?_, ?_⟩⟩
  · simp [execStmt, hc, he]
  · rw [getEnv_envWrite_self s₁ r x v hlen]
    exact alistLookup_set_self _ _ _
  · exact getEnv_envWrite_other s₁ r 0 x v hr
  · simp [execStmt, hc, hg, he]
  · rw [getEnv_envWrite_self s₁ 0 x v h0]
    exact alistLookup_set_self _ _ _
  · exact getEnv_envWrite_other s₁ 0 r x v (Ne.symm hr)
  · simp [execStmt, hc, hg, he]
  · rw [getEnv_envWrite_self s₁ r x v hlen]
    exact alistLookup_set_self _ _ _

/-- Claim C9 witness: assigning `x = 5` in a frame where `x` is a local
binding updates the local and leaves the global dict alone. -/
theorem assign_scoping_wit :
    envContains
        (getEnv { envs := [[("y", Value.vnone)], [("x", Value.vint 0)]],
                  lists := [], funcs := [], output := [], input := [] } 1)
        "x" = true ∧
    execStmt 2 1 (.assign (.var "x") (.number (.vint 5)))
        { envs := [[("y", Value.vnone)], [("x", Value.vint 0)]],
          lists := [], funcs := [], output := [], input := [] } =
      .ok (envWrite
            { envs := [[("y", Value.vnone)], [("x", Value.vint 0)]],
              lists := [], funcs := [], output := [], input := [] }
            1 "x" (.vint 5), none) := by
  refine ⟨rfl, ?_⟩
  exact ((assign_scoping "x" (.number (.vint 5)) 1 1
      { envs := [[("y", Value.vnone)], [("x", Value.vint 0)]],
        lists := [], funcs := [], output := [], input := [] }
      { envs := [[("y", Value.vnone)], [("x", Value.vint 0)]],
        lists := [], funcs := [], output := [], input := [] }
      (.vint 5) (by decide) (by decide) (by decide) rfl).1 rfl).1

/-! ### Sharing lemmas for claim C10 -/

theorem pyGetItem_nat (s : State) (ref : Nat) (i : Nat)
    (hi : i < (getListH s ref).length) :
    pyGetItem s (.vlist ref) (.vint i) =
      .ok ((getListH s ref).getD i .vnone) := by
  have hw : pyWrap (i : Int) (getListH s ref).length = i := by
    unfold pyWrap
    rw [if_neg (Int.not_lt.mpr (Int.natCast_nonneg i))]
  show (if 0 ≤ pyWrap (i : Int) (getListH s ref).length ∧
          pyWrap (i : Int) (getListH s ref).length <
            ((getListH s ref).length : Int) then
        Res.ok ((getListH s ref).getD
          (pyWrap (i : Int) (getListH s ref).length).toNat .vnone)
      else Res.err .indexError) = _
  rw [hw, if_pos ⟨Int.natCast_nonneg i, by exact_mod_cast hi⟩]
  rw [Int.toNat_natCast]

theorem pySetItem_nat (s : State) (ref : Nat) (i : Nat) (v : Value)
    (hi : i < (getListH s ref).length) :
    pySetItem s (.vlist ref) (.vint i) v =
      .ok (setListH s ref ((getListH s ref).set i v)) := by
  have hw : pyWrap (i : Int) (getListH s ref).length = i := by
    unfold pyWrap
    rw [if_neg (Int.not_lt.mpr (Int.natCast_nonneg i))]
  show (if 0 ≤ pyWrap (i : Int) (getListH s ref).length ∧
          pyWrap (i : Int) (getListH s ref).length <
            ((getListH s ref).length : Int) then
        Res.ok (setListH s ref ((getListH s ref).set
          (pyWrap (i : Int) (getListH s ref).length).toNat v))
      else Res.err .indexError) = _
  rw [hw, if_pos ⟨Int.natCast_nonneg i, by exact_mod_cast hi⟩]
  rw [Int.toNat_natCast]

theorem getD_set_self (xs : List Value) (i : Nat) (v : Value)
    (h : i < xs.length) : (xs.set i v).getD i .vnone = v := by
  show ((xs.set i v).get? i).getD .vnone = v
  rw [List.get?_eq_getElem?, List.getElem?_set_self (by simpa using h)]
  rfl

/-- Claim C10 (confirmed).  Calling `f` — whose body performs the
index-assignment `x[i] = v` — from a caller whose global `x` holds a
Sequence mutates the shared store entry, so after the call the caller's own
read `x[i]` yields `v` while the caller's binding of `x` is untouched;
calling `g` — whose body rebinds the name `x` — changes only the call's
copied local environment and leaves both the caller's binding and the
sequence unchanged. -/
theorem list_mutation_shared_across_call (xs : List Value) (i : Nat)
    (v : Value) (hi : i < xs.length) :
    evalExpr 6 0 (.call "f" []) (sharedState xs i v) =
      .ok ({ sharedState xs i v with
               envs := [[("x", .vlist 0)], [("x", .vlist 0)]],
               lists := [xs.set i v] }, .vnone) ∧
    evalExpr 2 0 (.index "x" (.number (.vint i)))
        { sharedState xs i v with
            envs := [[("x", .vlist 0)], [("x", .vlist 0)]],
            lists := [xs.set i v] } =
      .ok ({ sharedState xs i v with
               envs := [[("x", .vlist 0)], [("x", .vlist 0)]],
               lists := [xs.set i v] }, v) ∧
    evalExpr 6 0 (.call "g" []) (sharedState xs i v) =
      .ok ({ sharedState xs i v with
               envs := [[("x", .vlist 0)], [("x", .vint 99)]] }, .vnone) := by
  refine ⟨?_, ?_, rfl⟩
  · have hset : ∀ fs : List (String × FnDef),
        pySetItem
          { envs := [[("x", .vlist 0)], [("x", .vlist 0)]], lists := [xs],
            funcs := fs, output := [], input := [] } (.vlist 0) (.vint i) v =
          .ok { envs := [[("x", .vlist 0)], [("x", .vlist 0)]],
                lists := [xs.set i v], funcs := fs, output := [],
                input := [] } := by
      intro fs
      rw [pySetItem_nat _ 0 i v (by simpa [getListH] using hi)]
      rfl
    simp [evalExpr, evalArgs, execBlock, execStmt, sharedState, mutFn,
      rebindFn, getEnv, allocEnv, bindParams, alistSet, alistLookup,
      envLookup, hasDot, splitDots, splitDotsAux, hset]
  · have hget : pyGetItem
        { envs := [[("x", .vlist 0)], [("x", .vlist 0)]],
          lists := [xs.set i v],
          funcs := [("f", mutFn i v), ("g", rebindFn)], output := [],
          input := [] } (.vlist 0) (.vint i) = .ok v := by
      rw [pyGetItem_nat _ 0 i
        (by simpa [getListH, List.length_set] using hi)]
      show Res.ok ((xs.set i v).getD i Value.vnone) = Res.ok v
      rw [getD_set_self xs i v hi]
    simp [evalExpr, sharedState, getEnv, envLookup, alistLookup, hget]

/-- Claim C10 witness: a one-element sequence updated through `f`. -/
theorem list_mutation_shared_across_call_wit :
    evalExpr 6 0 (.call "f" []) (sharedState [.vint 10] 0 (.vint 5)) =
      .ok ({ sharedState [.vint 10] 0 (.vint 5) with
               envs := [[("x", .vlist 0)], [("x", .vlist 0)]],
               lists := [[.vint 5]] }, .vnone) :=
  (list_mutation_shared_across_call [.vint 10] 0 (.vint 5) (by decide)).1

end CSHS
